import Mathlib

/-!
Verification development for the gmaps-extract repository.

The definitions below are a shallow embedding of the job orchestration and
scraping engine: the Bull worker loop in workers/scrapeWorker.ts, the
GoogleMapsScraper in services/scraper.ts, the pause/resume API routes, the
delay controller in utils/delays.ts, the CSV export header construction in
services/export.ts, and the enrichment pipeline (emailScrapeQueue handler and
services/emailScraper.ts).  Browser/DOM interactions and the database are
modelled as explicit environments and state records; the control flow of every
embedded function follows the TypeScript source line by line.
-/

namespace GmapsExtract

/-! ## Data model (prisma Job / ScrapedPlace rows, services/scraper.ts types) -/

/-- Job lifecycle status values used throughout the code
(PENDING, RUNNING, PAUSED, COMPLETED, FAILED). -/
inductive JobStatus
  | PENDING
  | RUNNING
  | PAUSED
  | COMPLETED
  | FAILED
deriving DecidableEq, Repr

/-- Enrichment status flag stored on a ScrapedPlace row
(emailScrapingStatus column: PENDING, SCRAPING, DONE, FAILED). -/
inductive EmailStatus
  | PENDING
  | SCRAPING
  | DONE
  | FAILED
deriving DecidableEq, Repr

/-- The fields of a scraped place produced by
GoogleMapsScraper.scrapePlaceDetails (interface ScrapedPlaceData in
services/scraper.ts).  Numeric page data (rating, review count, coordinates)
is kept as rationals; every field other than the natural key and name is
optional, exactly as in the source interface. -/
structure ScrapedPlaceData where
  placeId : String
  name : String
  address : Option String := none
  city : Option String := none
  rating : Option ℚ := none
  reviewsCount : Option Nat := none
  phone : Option String := none
  website : Option String := none
  email : Option String := none
  facebook : Option String := none
  instagram : Option String := none
  twitter : Option String := none
  linkedin : Option String := none
  plusCode : Option String := none
  latitude : Option ℚ := none
  longitude : Option ℚ := none
  businessStatus : Option String := none
  about : Option String := none
deriving DecidableEq, Repr

/-- The mutable columns of a prisma Job row that the worker and the API
routes read and write.  Timestamps are modelled as set/unset flags. -/
structure Job where
  status : JobStatus
  currentKeywordIndex : Nat
  currentSubLocationIndex : Nat
  scrapedCount : Nat
  failedCount : Nat
  pauseReason : Option String
  errorMessage : Option String := none
  startedAt : Bool := false
  completedAt : Bool := false
deriving DecidableEq, Repr

/-! ## Delay controller (utils/delays.ts) -/

/-- Box-Muller gaussian draw from two uniform samples,
`Math.sqrt(-2.0 * Math.log(u1)) * Math.cos(2.0 * Math.PI * u2)`
(utils/delays.ts line 8).  JavaScript numbers are modelled as reals. -/
noncomputable def gaussianDraw (u1 u2 : ℝ) : ℝ :=
  Real.sqrt (-2 * Real.log u1) * Real.cos (2 * Real.pi * u2)

/-- getRandomDelay(min, max) from utils/delays.ts: mean and standard
deviation are computed from the bounds, the gaussian sample is scaled and
shifted, clamped to [min, max] with `Math.max(min, Math.min(max, delay))`,
and the result is passed through `Math.round` (round half up, as in
JavaScript).  The two `Math.random()` draws are explicit arguments. -/
noncomputable def getRandomDelay (mn mx u1 u2 : ℝ) : ℝ :=
  let mean := (mn + mx) / 2
  let stdDev := (mx - mn) / 6
  let delay := mean + gaussianDraw u1 u2 * stdDev
  let clamped := max mn (min mx delay)
  ((round clamped : ℤ) : ℝ)

/-! ## CSV export (services/export.ts, generateCSV) -/

/-- Column ids of the CSV produced by generateCSV for a given
fieldsToScrape configuration: the four base columns are always present and
each recognised selection token appends its column group in the order of the
source (services/export.ts lines 44-75). -/
def csvHeaders (fieldsToScrape : List String) : List String :=
  ["name", "address", "website", "placeId"]
    ++ (if fieldsToScrape.contains "city" then ["city"] else [])
    ++ (if fieldsToScrape.contains "rating" then ["rating", "reviewsCount"] else [])
    ++ (if fieldsToScrape.contains "phone" then ["phone"] else [])
    ++ (if fieldsToScrape.contains "coordinates" then ["latitude", "longitude"] else [])
    ++ (if fieldsToScrape.contains "businessInfo" then ["businessStatus", "businessTypes"] else [])
    ++ (if fieldsToScrape.contains "socialMedia" then
          ["facebook", "instagram", "twitter", "linkedin"] else [])

/-! ## Session manager handle (GoogleMapsScraper.close, services/scraper.ts) -/

/-- The browser-owning fields of a GoogleMapsScraper instance:
`private browser` and `private page`, both nulled by close(). -/
structure ScraperSession where
  browser : Bool
  page : Bool
deriving DecidableEq, Repr

/-- GoogleMapsScraper.close(): if a browser handle is present it is closed
and both the browser and page fields are set to null; otherwise the call is
a no-op (services/scraper.ts lines 446-453). -/
def closeScraper (s : ScraperSession) : ScraperSession :=
  if s.browser then { browser := false, page := false } else s

/-! ## Pause / resume API routes (app/api/jobs/[id]/pause and /resume) -/

/-- The job-unit payload that the resume route re-enqueues through
resumeScrapeJob (services/queue.ts ScrapeJobData); only the fields the
route copies from the persisted job row are relevant here. -/
structure ResumeData where
  resumeFromIndex : Nat
deriving DecidableEq, Repr

/-- PATCH /api/jobs/[id]/pause: reject with a 400 response (modelled as
Except.error carrying the untouched row) unless the job status is RUNNING;
otherwise persist status PAUSED with the fixed manual pause reason. -/
def pauseRoute (j : Job) : Except Job Job :=
  if j.status = JobStatus.RUNNING then
    Except.ok { j with status := JobStatus.PAUSED,
                       pauseReason := some "Manually paused by user" }
  else
    Except.error j

/-- PATCH /api/jobs/[id]/resume: reject unless the job status is PAUSED;
otherwise persist status PENDING with the pause reason cleared and re-enqueue
a job-unit whose resumeFromIndex is the persisted currentKeywordIndex
(unnamed/part_003 lines 99-166). -/
def resumeRoute (j : Job) : Except Job (Job × ResumeData) :=
  if j.status = JobStatus.PAUSED then
    Except.ok ({ j with status := JobStatus.PENDING, pauseReason := none },
               { resumeFromIndex := j.currentKeywordIndex })
  else
    Except.error j

/-! ## Page environment and GoogleMapsScraper.searchPlaces (services/scraper.ts)

The browser is replaced by an explicit page environment: what
detectCaptcha and scrapePlaceDetails would observe for each candidate
detail link of a result listing. -/

/-- One candidate detail link of a result listing: whether detectCaptcha
fires right before this link is scraped, and the result of
scrapePlaceDetails for it (none models both a null return and a caught
per-link extraction error, which the loop skips identically). -/
structure LinkEnv where
  captchaBefore : Bool
  detail : Option ScrapedPlaceData
deriving DecidableEq, Repr

/-- Everything searchPlaces can observe for one (keyword, location) query:
whether navigation/landmark waiting throws a non-captcha error, whether the
initial detectCaptcha check after page load fires, and the candidate links
in listing order. -/
structure PageEnv where
  navFails : Bool
  initialCaptcha : Bool
  links : List LinkEnv
deriving DecidableEq, Repr

/-- Errors that searchPlaces can propagate to the worker: the sentinel
CAPTCHA_DETECTED, or any other navigation/search failure. -/
inductive ScrapeError
  | captchaDetected
  | other
deriving DecidableEq, Repr

/-- Decidable equality for Except values, so that concrete search outcomes
can be checked by evaluation. -/
instance exceptDecEq {e a : Type} [DecidableEq e] [DecidableEq a] :
    DecidableEq (Except e a)
  | Except.error x, Except.error y =>
    if h : x = y then Decidable.isTrue (by rw [h])
    else Decidable.isFalse (fun hh => h (Except.error.inj hh))
  | Except.error _, Except.ok _ => Decidable.isFalse (fun hh => Except.noConfusion hh)
  | Except.ok _, Except.error _ => Decidable.isFalse (fun hh => Except.noConfusion hh)
  | Except.ok x, Except.ok y =>
    if h : x = y then Decidable.isTrue (by rw [h])
    else Decidable.isFalse (fun hh => h (Except.ok.inj hh))

/-- The per-link loop body of searchPlaces (services/scraper.ts lines
113-144): before scraping each link detectCaptcha is consulted and throws
CAPTCHA_DETECTED, discarding everything accumulated so far in the local
scrapedData array; a successful extraction is pushed onto the accumulator;
a null extraction (or caught per-link error) is skipped. -/
def collectPlaces : List LinkEnv → List ScrapedPlaceData →
    Except ScrapeError (List ScrapedPlaceData)
  | [], acc => Except.ok acc
  | l :: ls, acc =>
    if l.captchaBefore then Except.error ScrapeError.captchaDetected
    else
      match l.detail with
      | some p => collectPlaces ls (acc ++ [p])
      | none => collectPlaces ls acc

/-- GoogleMapsScraper.searchPlaces for one query: navigation or landmark
waiting may throw a non-captcha error, the post-load detectCaptcha check may
throw CAPTCHA_DETECTED, and otherwise the candidate links are scanned by the
accumulating loop.  Records only leave this function through the final
`return scrapedData`; an error return carries no records. -/
def searchPlaces (pe : PageEnv) : Except ScrapeError (List ScrapedPlaceData) :=
  if pe.navFails then Except.error ScrapeError.other
  else if pe.initialCaptcha then Except.error ScrapeError.captchaDetected
  else collectPlaces pe.links []

/-! ## Scrape worker (workers/scrapeWorker.ts, scrapeQueue.process handler) -/

/-- The configuration a dispatched job-unit runs with: the keyword list and
result cap from the queue payload, and the effective location list
(`dbJob.subLocations` when non-empty, else the payload locations —
scrapeWorker.ts line 100).  hasSubLocations records whether
dbJob.subLocations is non-null, which guards the currentSubLocationIndex
persistence. -/
structure JobConfig where
  keywords : List String
  searchLocations : List String
  hasSubLocations : Bool
  maxResultsPerKeyword : Nat
deriving DecidableEq, Repr

/-- The environment of one worker execution: the page served for each
(keyword index, location index) query, whether the job status reads PAUSED
at the top of each keyword iteration (the external pause observation),
whether scraper.initialize() throws, and whether inserting a given placeId
raises a non-P2002 database error. -/
structure ScrapeEnv where
  page : Nat → Nat → PageEnv
  pauseSeen : Nat → Bool
  initFails : Bool
  saveFails : String → Bool

/-- The state threaded through one worker execution: the job row, the
global scrapedPlace table (as the list of stored placeIds in insertion
order — the natural-key unique constraint spans all jobs), the trace of
searchPlaces invocations as (keyword index, location index) pairs, and
whether the scraper currently holds a live browser. -/
structure WorkerState where
  job : Job
  store : List String
  searched : List (Nat × Nat)
  browserOpen : Bool
deriving DecidableEq, Repr

/-- Saving one place (scrapeWorker.ts lines 122-193): the insert raises
P2002 when the placeId is already stored and the loop continues; any other
insert error is re-thrown out of the place loop (second component true);
a successful insert appends the row and increments scrapedCount.  Discord
milestones, SSE progress events and email-queue submissions are
fire-and-forget side effects with no bearing on job state. -/
def savePlace (env : ScrapeEnv) (s : WorkerState) (p : ScrapedPlaceData) :
    WorkerState × Bool :=
  if p.placeId ∈ s.store then (s, false)
  else if env.saveFails p.placeId then (s, true)
  else ({ s with store := s.store ++ [p.placeId],
                 job := { s.job with scrapedCount := s.job.scrapedCount + 1 } },
        false)

/-- The save loop over the capped place list for one (keyword, location)
pair; a re-thrown non-P2002 error aborts the remainder of the list. -/
def savePlaces (env : ScrapeEnv) : WorkerState → List ScrapedPlaceData →
    WorkerState × Bool
  | s, [] => (s, false)
  | s, p :: ps =>
    match savePlace env s p with
    | (s1, true) => (s1, true)
    | (s1, false) => savePlaces env s1 ps

/-- One (keyword index, location index) iteration of the worker
(scrapeWorker.ts lines 106-248, and the location-free branch 252-375 which
differs only in not updating currentSubLocationIndex): invoke searchPlaces,
persist currentSubLocationIndex := j+1 when subLocations drive the search,
cap the results, run the save loop; CAPTCHA_DETECTED persists the paused
status with its reason, closes the scraper and returns from the handler
(Except.error); any other error appends a failedScrape row and increments
failedCount, continuing with the next pair. -/
def processPair (cfg : JobConfig) (env : ScrapeEnv) (i j : Nat)
    (s : WorkerState) : Except WorkerState WorkerState :=
  let s0 := { s with searched := s.searched ++ [(i, j)] }
  match searchPlaces (env.page i j) with
  | Except.error ScrapeError.captchaDetected =>
    Except.error
      { s0 with
        job := { s0.job with status := JobStatus.PAUSED,
                             pauseReason := some "CAPTCHA detected" },
        browserOpen := false }
  | Except.error ScrapeError.other =>
    Except.ok { s0 with job := { s0.job with failedCount := s0.job.failedCount + 1 } }
  | Except.ok places =>
    let s1 :=
      if cfg.hasSubLocations then
        { s0 with job := { s0.job with currentSubLocationIndex := j + 1 } }
      else s0
    match savePlaces env s1 (places.take cfg.maxResultsPerKeyword) with
    | (s2, true) =>
      Except.ok { s2 with job := { s2.job with failedCount := s2.job.failedCount + 1 } }
    | (s2, false) => Except.ok s2

/-- The inner location loop `for (let j = 0; ...)` of one keyword, running
`rem` further iterations starting at index `j`; the loop always starts at
j = 0 when the keyword iteration enters it. -/
def processLocations (cfg : JobConfig) (env : ScrapeEnv) (i : Nat) :
    Nat → Nat → WorkerState → Except WorkerState WorkerState
  | _, 0, s => Except.ok s
  | j, rem + 1, s =>
    match processPair cfg env i j s with
    | Except.error s1 => Except.error s1
    | Except.ok s1 => processLocations cfg env i (j + 1) rem s1

/-- One keyword iteration body after the pause check and cursor update:
loop over the effective locations, or run a single location-free query when
none are configured. -/
def processKeyword (cfg : JobConfig) (env : ScrapeEnv) (i : Nat)
    (s : WorkerState) : Except WorkerState WorkerState :=
  if 0 < cfg.searchLocations.length then
    processLocations cfg env i 0 cfg.searchLocations.length s
  else
    processPair cfg env i 0 s

/-- The outer keyword loop `for (let i = startIndex; i < keywords.length)`
(scrapeWorker.ts lines 78-377) with `rem` iterations left: at the top of
each iteration the job status is re-read and a PAUSED reading closes the
scraper and returns from the handler; otherwise currentKeyword(Index) := i
is persisted before the keyword is processed. -/
def runKeywords (cfg : JobConfig) (env : ScrapeEnv) :
    Nat → Nat → WorkerState → Except WorkerState WorkerState
  | _, 0, s => Except.ok s
  | i, rem + 1, s =>
    if env.pauseSeen i then Except.error { s with browserOpen := false }
    else
      let s1 := { s with job := { s.job with currentKeywordIndex := i } }
      match processKeyword cfg env i s1 with
      | Except.error s2 => Except.error s2
      | Except.ok s2 => runKeywords cfg env (i + 1) rem s2

/-- The whole scrapeQueue.process handler (scrapeWorker.ts lines 16-452):
skip outright when the stored status is PAUSED (before any browser is
opened); otherwise set RUNNING with startedAt kept idempotent, initialize
the scraper (a failing initialize falls to the fatal catch, which persists
FAILED with an error message before re-throwing to the queue), read the
start index from the persisted cursor, run the keyword loop from there, and
on normal exhaustion persist COMPLETED with the completion timestamp.
The finally block closes the scraper on every exit path. -/
def dispatch (cfg : JobConfig) (env : ScrapeEnv) (s0 : WorkerState) :
    WorkerState :=
  if s0.job.status = JobStatus.PAUSED then s0
  else
    let s1 := { s0 with
                job := { s0.job with status := JobStatus.RUNNING, startedAt := true },
                browserOpen := true }
    if env.initFails then
      { s1 with
        job := { s1.job with status := JobStatus.FAILED,
                             errorMessage := some "scraper initialization failed" },
        browserOpen := false }
    else
      let startIndex := s1.job.currentKeywordIndex
      match runKeywords cfg env startIndex (cfg.keywords.length - startIndex) s1 with
      | Except.error s2 => { s2 with browserOpen := false }
      | Except.ok s2 =>
        { s2 with
          job := { s2.job with status := JobStatus.COMPLETED, completedAt := true },
          browserOpen := false }

/-! ## Enrichment pipeline (services/emailScraper.ts and the
emailScrapeQueue.process handler in workers/scrapeWorker.ts) -/

/-- Insertion-order deduplication, the behaviour of pouring a list into a
JavaScript Set and reading it back (`[...new Set(xs)]`). -/
def dedupList (xs : List String) : List String :=
  xs.foldl (fun acc x => if x ∈ acc then acc else acc ++ [x]) []

/-- Adding a page's matches into the accumulated Set
(`pageEmails.forEach(email => emails.add(email))`). -/
def addAll (acc xs : List String) : List String :=
  xs.foldl (fun a x => if x ∈ a then a else a ++ [x]) acc

/-- Substring test mirroring JavaScript String.prototype.includes. -/
def includesSub (s pat : String) : Bool :=
  if 2 ≤ (s.splitOn pat).length then true else false

/-- What one linked contact/about page yields: whether navigating to it
throws (the error is caught and the page skipped), and the email-shaped
regex matches of its visible text in document order. -/
structure ContactPage where
  navFails : Bool
  emails : List String
deriving DecidableEq, Repr

/-- What the enrichment scraper can observe for one website: whether the
homepage navigation throws (caught by the outer catch, which returns an
empty list), the homepage's email-shaped regex matches, every anchor href
on the homepage, and the contact pages behind those hrefs. -/
structure SiteEnv where
  homeFails : Bool
  homeEmails : List String
  anchorHrefs : List String
  contactPage : String → ContactPage

/-- The hrefs the enrichment scraper follows: anchors whose href is truthy
and contains "contact" or "about" (services/emailScraper.ts lines 47-52). -/
def contactLinks (site : SiteEnv) : List String :=
  site.anchorHrefs.filter
    (fun h => h ≠ "" && (includesSub h "contact" || includesSub h "about"))

/-- The contact/about pages the scraper actually visits:
`[...new Set(contactLinks)].slice(0, 2)`. -/
def visitedPages (site : SiteEnv) : List String :=
  (dedupList (contactLinks site)).take 2

/-- EmailScraper.scrapeEmails (services/emailScraper.ts lines 29-72): visit
the homepage and collect its deduplicated matches into a Set, then visit at
most the first two deduplicated contact/about links — a page whose
navigation throws is skipped — adding each page's deduplicated matches to
the Set; a homepage failure is swallowed and yields the empty list. -/
def scrapeEmails (site : SiteEnv) : List String :=
  if site.homeFails then []
  else
    (visitedPages site).foldl
      (fun acc link =>
        let pg := site.contactPage link
        if pg.navFails then acc else addAll acc (dedupList pg.emails))
      (dedupList site.homeEmails)

/-- The enrichment-relevant columns of one scrapedPlace row. -/
structure PlaceRow where
  email : Option String
  emailScrapingStatus : EmailStatus
deriving DecidableEq, Repr

/-- Environment of one enrichment unit execution: whether
EmailScraper.initialize() throws, and the target website. -/
structure EmailJobEnv where
  initFails : Bool
  site : SiteEnv

/-- Observable outcome of one emailScrapeQueue.process execution: the final
row, the sequence of emailScrapingStatus writes, whether the website was
fetched at all, and whether the handler re-threw to the queue. -/
structure EmailJobResult where
  row : PlaceRow
  statusWrites : List EmailStatus
  fetched : Bool
  threw : Bool
deriving DecidableEq, Repr

/-- The emailScrapeQueue.process handler (workers/scrapeWorker.ts lines
475-512): initialize the disposable scraper — a failure falls to the catch,
which marks the row FAILED and re-throws, ending the unit; otherwise mark
the row SCRAPING, fetch the site once through scrapeEmails (which never
throws), and mark the row DONE with the joined email list.  The finally
block closes the disposable scraper on both paths. -/
def processEmailJob (env : EmailJobEnv) (row : PlaceRow) : EmailJobResult :=
  if env.initFails then
    { row := { row with emailScrapingStatus := EmailStatus.FAILED },
      statusWrites := [EmailStatus.FAILED],
      fetched := false,
      threw := true }
  else
    let emails := scrapeEmails env.site
    { row := { row with email := some (String.intercalate ", " emails),
                        emailScrapingStatus := EmailStatus.DONE },
      statusWrites := [EmailStatus.SCRAPING, EmailStatus.DONE],
      fetched := true,
      threw := false }

/-! ## Traversal bookkeeping used by the statements

These functions describe, at the specification level, which (keyword,
location) grid the worker loop walks and which placeIds it would commit;
the theorems below relate the embedded worker to them. -/

/-- The list j, j+1, ..., j+rem-1 of inner-loop indices. -/
def idxRange : Nat → Nat → List Nat
  | _, 0 => []
  | j, rem + 1 => j :: idxRange (j + 1) rem

/-- Number of inner iterations one keyword performs: one per effective
location, or a single location-free query when none are configured. -/
def rowLen (cfg : JobConfig) : Nat :=
  max cfg.searchLocations.length 1

/-- The (keyword index, location index) pairs visited for one keyword. -/
def pairRow (cfg : JobConfig) (i : Nat) : List (Nat × Nat) :=
  (idxRange 0 (rowLen cfg)).map (fun j => (i, j))

/-- The full grid of pairs visited from keyword index i for rem keywords,
in the order the worker walks them. -/
def pairsFrom (cfg : JobConfig) : Nat → Nat → List (Nat × Nat)
  | _, 0 => []
  | i, rem + 1 => pairRow cfg i ++ pairsFrom cfg (i + 1) rem

/-- Upserting a list of natural keys into the datastore: each key is
appended once and silently skipped when already present. -/
def insertNew (store ids : List String) : List String :=
  ids.foldl (fun st id => if id ∈ st then st else st ++ [id]) store

/-- The placeIds a clean (keyword, location) query offers for saving,
after the per-term result cap. -/
def cappedIds (cfg : JobConfig) (env : ScrapeEnv) (i j : Nat) : List String :=
  match searchPlaces (env.page i j) with
  | Except.ok ps => (ps.take cfg.maxResultsPerKeyword).map (fun p => p.placeId)
  | Except.error _ => []

/-- The capped placeIds of one keyword row, in visit order. -/
def rowIds (cfg : JobConfig) (env : ScrapeEnv) (i : Nat) : List String :=
  ((idxRange 0 (rowLen cfg)).map (cappedIds cfg env i)).flatten

/-- The capped placeIds of the whole traversal from keyword i. -/
def idsFrom (cfg : JobConfig) (env : ScrapeEnv) : Nat → Nat → List String
  | _, 0 => []
  | i, rem + 1 => rowIds cfg env i ++ idsFrom cfg env (i + 1) rem

/-! ## Concrete fixtures used by counterexamples and witnesses -/

/-- Fixture place with natural key p1. -/
def exPlace1 : ScrapedPlaceData :=
  { placeId := "p1", name := "Cafe One", website := some "http://cafe.one" }

/-- Fixture place with natural key p2. -/
def exPlace2 : ScrapedPlaceData :=
  { placeId := "p2", name := "Cafe Two" }

/-- A healthy result listing with a single extractable link. -/
def pageOkEx : PageEnv :=
  { navFails := false, initialCaptcha := false,
    links := [{ captchaBefore := false, detail := some exPlace1 }] }

/-- A healthy listing offering p1, p2 and then a duplicate of p1. -/
def pageTwoEx : PageEnv :=
  { navFails := false, initialCaptcha := false,
    links := [{ captchaBefore := false, detail := some exPlace1 },
              { captchaBefore := false, detail := some exPlace2 },
              { captchaBefore := false, detail := some exPlace1 }] }

/-- A listing whose first link extracts p1 and whose second link trips the
challenge detector: the CAPTCHA signal fires at record 2 of the listing. -/
def pageCapEx : PageEnv :=
  { navFails := false, initialCaptcha := false,
    links := [{ captchaBefore := false, detail := some exPlace1 },
              { captchaBefore := true, detail := none }] }

/-- Fixture job configuration: one keyword over two sub-locations. -/
def cfgEx : JobConfig :=
  { keywords := ["bakery"], searchLocations := ["north", "south"],
    hasSubLocations := true, maxResultsPerKeyword := 10 }

/-- Environment in which location 0 succeeds and location 1 raises the
challenge signal at its second link. -/
def envCapEx : ScrapeEnv :=
  { page := fun _ j => if j = 0 then pageOkEx else pageCapEx,
    pauseSeen := fun _ => false, initFails := false,
    saveFails := fun _ => false }

/-- Environment in which every query succeeds with the single-link page. -/
def envOkEx : ScrapeEnv :=
  { page := fun _ _ => pageOkEx,
    pauseSeen := fun _ => false, initFails := false,
    saveFails := fun _ => false }

/-- Environment in which every query returns the three-link listing with a
duplicated natural key. -/
def envTwoEx : ScrapeEnv :=
  { page := fun _ _ => pageTwoEx,
    pauseSeen := fun _ => false, initFails := false,
    saveFails := fun _ => false }

/-- Fresh worker state: a pending job with zero counters, empty datastore. -/
def sEx : WorkerState :=
  { job := { status := JobStatus.PENDING, currentKeywordIndex := 0,
             currentSubLocationIndex := 0, scrapedCount := 0,
             failedCount := 0, pauseReason := none },
    store := [], searched := [], browserOpen := false }

/-- First execution of the fixture job under envCapEx: it saves p1 from
(bakery, north) and then pauses on the challenge at (bakery, south). -/
def runCapEx : WorkerState := dispatch cfgEx envCapEx sEx

/-- The job row the resume route persists for the paused fixture job. -/
def jobResumedEx : Job :=
  { runCapEx.job with status := JobStatus.PENDING, pauseReason := none }

/-- Re-dispatch of the resumed fixture job in a challenge-free environment. -/
def runResumedEx : WorkerState :=
  dispatch cfgEx envOkEx { sEx with job := jobResumedEx, store := runCapEx.store }

/-- Worker state whose datastore already holds p1 (written by an earlier
job), for the duplicate-write fixture. -/
def sStoreEx : WorkerState := { sEx with store := ["p1"] }

/-- Fixture save batch: a duplicate of the stored p1 followed by a new p2. -/
def psEx : List ScrapedPlaceData := [exPlace1, exPlace2]

/-- Contact pages of the fixture website: the contact page lists two
addresses (one repeated from the homepage) and every other page 404s. -/
def sitePageEx (h : String) : ContactPage :=
  if h = "http://x/contact" then { navFails := false, emails := ["d@e.f", "g@h.i"] }
  else { navFails := true, emails := ["zz@zz.zz"] }

/-- Fixture website for the enrichment pipeline. -/
def siteEx : SiteEnv :=
  { homeFails := false,
    homeEmails := ["a@b.c", "a@b.c", "d@e.f"],
    anchorHrefs := ["http://x/contact", "http://x/about-us", "http://x/other",
                    "http://x/contact"],
    contactPage := sitePageEx }

/-- Enrichment environment whose initialize() succeeds. -/
def emailEnvOkEx : EmailJobEnv := { initFails := false, site := siteEx }

/-- Enrichment environment whose initialize() throws. -/
def emailEnvFailEx : EmailJobEnv := { initFails := true, site := siteEx }

/-- Fixture scrapedPlace row awaiting enrichment. -/
def rowEx : PlaceRow := { email := none, emailScrapingStatus := EmailStatus.PENDING }

/-! ## Theorems -/

/-- C5 counterexample: with the fractional bounds min = max = 1/2 the
standard deviation is zero, the clamped delay is exactly 1/2, and the final
Math.round pushes the result to 1, strictly above max — so getRandomDelay
does not always land in the closed interval [min, max] for every pair of
bounds min ≤ max. -/
theorem C5_round_counterexample :
    (1 : ℝ) / 2 ≤ (1 : ℝ) / 2 ∧
    getRandomDelay ((1 : ℝ) / 2) ((1 : ℝ) / 2) ((1 : ℝ) / 2) ((1 : ℝ) / 2)
      > (1 : ℝ) / 2 := by
  refine ⟨le_refl _, ?_⟩
  have hround : round ((1 : ℝ) / 2) = 1 := by
    rw [round_eq]
    norm_num
  simp only [getRandomDelay]
  norm_num [hround]

/-- C5 amended: for integer bounds min ≤ max (every call site passes whole
milliseconds) and any draws of the two underlying uniform samples, the
inter-record delay is clamped into [min, max] and rounding cannot leave an
interval with integer endpoints, so the result lies in [min, max]. -/
theorem C5_delay_in_bounds (a b : ℤ) (hab : a ≤ b) (u1 u2 : ℝ) :
    (a : ℝ) ≤ getRandomDelay a b u1 u2 ∧ getRandomDelay a b u1 u2 ≤ (b : ℝ) := by
  simp only [getRandomDelay]
  set d : ℝ := ((a : ℝ) + (b : ℝ)) / 2 + gaussianDraw u1 u2 * (((b : ℝ) - (a : ℝ)) / 6)
    with hd
  have habR : (a : ℝ) ≤ (b : ℝ) := by exact_mod_cast hab
  have hlo : (a : ℝ) ≤ max (a : ℝ) (min (b : ℝ) d) := le_max_left _ _
  have hhi : max (a : ℝ) (min (b : ℝ) d) ≤ (b : ℝ) :=
    max_le habR (min_le_left _ _)
  have hhalf : ((1 : ℝ) / 2) < 1 := by norm_num
  have hfa : Int.floor ((a : ℝ) + 1 / 2) = a := by
    rw [Int.floor_eq_iff]
    constructor
    · linarith
    · linarith
  have hfb : Int.floor ((b : ℝ) + 1 / 2) = b := by
    rw [Int.floor_eq_iff]
    constructor
    · linarith
    · linarith
  have h1 : a ≤ round (max (a : ℝ) (min (b : ℝ) d)) := by
    rw [round_eq]
    calc a = Int.floor ((a : ℝ) + 1 / 2) := hfa.symm
    _ ≤ Int.floor (max (a : ℝ) (min (b : ℝ) d) + 1 / 2) :=
        Int.floor_le_floor (by linarith)
  have h2 : round (max (a : ℝ) (min (b : ℝ) d)) ≤ b := by
    rw [round_eq]
    calc Int.floor (max (a : ℝ) (min (b : ℝ) d) + 1 / 2)
        ≤ Int.floor ((b : ℝ) + 1 / 2) := Int.floor_le_floor (by linarith)
    _ = b := hfb
  constructor
  · exact_mod_cast h1
  · exact_mod_cast h2

/-- C5 witness: the amended bound theorem applied at the concrete call
humanDelay uses, bounds 2000 and 4000 with both uniform draws 1/2. -/
theorem C5_delay_in_bounds_witness :
    (2000 : ℤ) ≤ 4000 ∧
    (((2000 : ℤ) : ℝ) ≤ getRandomDelay 2000 4000 ((1 : ℝ) / 2) ((1 : ℝ) / 2) ∧
     getRandomDelay 2000 4000 ((1 : ℝ) / 2) ((1 : ℝ) / 2) ≤ ((4000 : ℤ) : ℝ)) :=
  ⟨by decide, C5_delay_in_bounds 2000 4000 (by decide) ((1 : ℝ) / 2) ((1 : ℝ) / 2)⟩

/-- C6: the pause route succeeds exactly from RUNNING, persisting PAUSED
with the manual pause reason and touching nothing else, and rejects any
other status leaving the row unchanged; the resume route succeeds exactly
from PAUSED, persisting PENDING with the pause reason cleared and
re-enqueuing a job-unit whose resumeFromIndex is the persisted
currentKeywordIndex, and rejects any other status leaving the row
unchanged. -/
theorem C6_pause_resume_routes (j : Job) :
    (∀ j2, pauseRoute j = Except.ok j2 →
        j.status = JobStatus.RUNNING ∧
        j2 = { j with status := JobStatus.PAUSED,
                      pauseReason := some "Manually paused by user" }) ∧
    (j.status ≠ JobStatus.RUNNING → pauseRoute j = Except.error j) ∧
    (∀ j2 rd, resumeRoute j = Except.ok (j2, rd) →
        j.status = JobStatus.PAUSED ∧
        j2 = { j with status := JobStatus.PENDING, pauseReason := none } ∧
        rd.resumeFromIndex = j.currentKeywordIndex) ∧
    (j.status ≠ JobStatus.PAUSED → resumeRoute j = Except.error j) := by
  refine ⟨?_, ?_, ?_, ?_⟩
  · intro j2 h
    by_cases hs : j.status = JobStatus.RUNNING
    · simp only [pauseRoute, hs, if_pos, Except.ok.injEq] at h
      exact ⟨hs, h.symm⟩
    · simp [pauseRoute, hs] at h
  · intro hs
    simp [pauseRoute, hs]
  · intro j2 rd h
    by_cases hs : j.status = JobStatus.PAUSED
    · simp only [resumeRoute, hs, if_pos, Except.ok.injEq, Prod.mk.injEq] at h
      exact ⟨hs, h.1.symm, by rw [← h.2]⟩
    · simp [resumeRoute, hs] at h
  · intro hs
    simp [resumeRoute, hs]

/-- C6 witness: the routes applied to the concrete paused fixture job —
pausing it is rejected without change, and resuming it re-enqueues the
persisted cursor. -/
theorem C6_pause_resume_routes_witness :
    runCapEx.job.status ≠ JobStatus.RUNNING ∧
    pauseRoute runCapEx.job = Except.error runCapEx.job :=
  ⟨by decide, (C6_pause_resume_routes runCapEx.job).2.1 (by decide)⟩

/-- C8: GoogleMapsScraper.close is idempotent — a second close finds the
browser field already nulled and changes nothing — and nulls the browser
handle on the first call; and every exit of the job-processing handler
(the pre-dispatch skip that never opens a browser, a failing initialize
falling to the fatal catch, the pause/challenge early returns, and normal
completion) leaves the worker with no open browser. -/
theorem C8_close_idempotent_all_paths :
    (∀ s : ScraperSession,
        closeScraper (closeScraper s) = closeScraper s ∧
        (closeScraper s).browser = false) ∧
    (∀ (cfg : JobConfig) (env : ScrapeEnv) (s0 : WorkerState),
        s0.browserOpen = false → (dispatch cfg env s0).browserOpen = false) := by
  constructor
  · intro s
    by_cases hb : s.browser <;> simp [closeScraper, hb]
  · intro cfg env s0 h0
    unfold dispatch
    split
    · exact h0
    · split
      · rfl
      · dsimp only
        split <;> rfl

/-- C8 witness: the all-paths conjunct applied to the concrete fixture
dispatch, whose initial state holds no browser. -/
theorem C8_close_witness :
    sEx.browserOpen = false ∧ (dispatch cfgEx envOkEx sEx).browserOpen = false :=
  ⟨rfl, C8_close_idempotent_all_paths.2 cfgEx envOkEx sEx rfl⟩

/-- C7: the CSV column set always contains the name, address, website and
placeId columns for every field selection, and for the selection {phone}
it contains the phone column but no coordinate or social columns. -/
theorem C7_export_columns :
    (∀ fs : List String,
        "name" ∈ csvHeaders fs ∧ "address" ∈ csvHeaders fs ∧
        "website" ∈ csvHeaders fs ∧ "placeId" ∈ csvHeaders fs) ∧
    ("phone" ∈ csvHeaders ["phone"] ∧
     "latitude" ∉ csvHeaders ["phone"] ∧ "longitude" ∉ csvHeaders ["phone"] ∧
     "facebook" ∉ csvHeaders ["phone"] ∧ "instagram" ∉ csvHeaders ["phone"] ∧
     "twitter" ∉ csvHeaders ["phone"] ∧ "linkedin" ∉ csvHeaders ["phone"]) := by
  constructor
  · intro fs
    refine ⟨?_, ?_, ?_, ?_⟩ <;> simp [csvHeaders]
  · decide

/-! ### Set-insertion helper lemmas -/

theorem addAll_nil (acc : List String) : addAll acc [] = acc := rfl

theorem addAll_cons (acc : List String) (y : String) (ys : List String) :
    addAll acc (y :: ys) = addAll (if y ∈ acc then acc else acc ++ [y]) ys := rfl

theorem mem_addAll : ∀ (xs acc : List String) (x : String),
    x ∈ addAll acc xs ↔ x ∈ acc ∨ x ∈ xs
  | [], acc, x => by simp [addAll]
  | y :: ys, acc, x => by
    rw [addAll_cons]
    by_cases hy : y ∈ acc
    · rw [if_pos hy, mem_addAll ys acc x]
      simp only [List.mem_cons]
      constructor
      · rintro (h | h)
        · exact Or.inl h
        · exact Or.inr (Or.inr h)
      · rintro (h | h | h)
        · exact Or.inl h
        · exact Or.inl (h ▸ hy)
        · exact Or.inr h
    · rw [if_neg hy, mem_addAll ys (acc ++ [y]) x]
      simp only [List.mem_append, List.mem_singleton, List.mem_cons]
      tauto

theorem nodup_addAll : ∀ (xs acc : List String), acc.Nodup → (addAll acc xs).Nodup
  | [], _, h => h
  | y :: ys, acc, h => by
    rw [addAll_cons]
    by_cases hy : y ∈ acc
    · rw [if_pos hy]
      exact nodup_addAll ys acc h
    · rw [if_neg hy]
      refine nodup_addAll ys (acc ++ [y]) ?_
      simp [List.nodup_append, h, hy]

theorem dedupList_eq_addAll (xs : List String) : dedupList xs = addAll [] xs := rfl

theorem mem_dedupList (xs : List String) (x : String) :
    x ∈ dedupList xs ↔ x ∈ xs := by
  rw [dedupList_eq_addAll, mem_addAll]
  simp

theorem nodup_dedupList (xs : List String) : (dedupList xs).Nodup :=
  nodup_addAll xs [] List.nodup_nil

/-! ### Duplicate-key save loop lemmas (claim C2) -/

theorem savePlaces_nil (env : ScrapeEnv) (s : WorkerState) :
    savePlaces env s [] = (s, false) := rfl

theorem savePlaces_clean_core (env : ScrapeEnv) :
    ∀ (ps : List ScrapedPlaceData) (s : WorkerState),
      s.store.Nodup →
      (∀ p ∈ ps, env.saveFails p.placeId = false) →
      (savePlaces env s ps).2 = false ∧
      (savePlaces env s ps).1.store.Nodup ∧
      (∀ x, x ∈ (savePlaces env s ps).1.store ↔
          x ∈ s.store ∨ x ∈ ps.map (fun p => p.placeId))
  | [], s, hnd, _ => by simp [savePlaces, hnd]
  | p :: ps, s, hnd, hsf => by
    have hsfp : env.saveFails p.placeId = false := hsf p (by simp)
    by_cases hd : p.placeId ∈ s.store
    · have hsp : savePlace env s p = (s, false) := by simp [savePlace, hd]
      have hrec : savePlaces env s (p :: ps) = savePlaces env s ps := by
        simp [savePlaces, hsp]
      rw [hrec]
      obtain ⟨h1, h2, h3⟩ :=
        savePlaces_clean_core env ps s hnd
          (fun q hq => hsf q (List.mem_cons_of_mem _ hq))
      refine ⟨h1, h2, fun x => ?_⟩
      rw [h3]
      simp only [List.map_cons, List.mem_cons]
      constructor
      · rintro (h | h)
        · exact Or.inl h
        · exact Or.inr (Or.inr h)
      · rintro (h | h | h)
        · exact Or.inl h
        · exact Or.inl (h ▸ hd)
        · exact Or.inr h
    · have hsp : savePlace env s p =
          ({ s with store := s.store ++ [p.placeId],
                    job := { s.job with scrapedCount := s.job.scrapedCount + 1 } },
           false) := by
        simp [savePlace, hd, hsfp]
      have hrec : savePlaces env s (p :: ps) =
          savePlaces env
            { s with store := s.store ++ [p.placeId],
                     job := { s.job with scrapedCount := s.job.scrapedCount + 1 } }
            ps := by
        simp [savePlaces, hsp]
      rw [hrec]
      obtain ⟨h1, h2, h3⟩ :=
        savePlaces_clean_core env ps
          { s with store := s.store ++ [p.placeId],
                   job := { s.job with scrapedCount := s.job.scrapedCount + 1 } }
          (by simp [List.nodup_append, hnd, hd])
          (fun q hq => hsf q (List.mem_cons_of_mem _ hq))
      refine ⟨h1, h2, fun x => ?_⟩
      rw [h3]
      simp only [List.map_cons, List.mem_cons, List.mem_append, List.mem_singleton]
      tauto

/-- C2: writing an already-stored natural key again is detected as the
duplicate-key condition and swallowed — the save loop never re-throws
(second component false), the datastore keeps exactly one row per natural
key (it stays duplicate-free and each written key has count 1), and every
later element of the batch is still processed (the final membership is the
union of the old store and the whole batch).  The store is the global
table, so the already-stored row may come from any job. -/
theorem C2_duplicate_natural_key (env : ScrapeEnv) (s : WorkerState)
    (ps : List ScrapedPlaceData)
    (hnd : s.store.Nodup)
    (hsf : ∀ p ∈ ps, env.saveFails p.placeId = false) :
    (savePlaces env s ps).2 = false ∧
    (savePlaces env s ps).1.store.Nodup ∧
    (∀ x, x ∈ (savePlaces env s ps).1.store ↔
        x ∈ s.store ∨ x ∈ ps.map (fun p => p.placeId)) ∧
    (∀ x, x ∈ ps.map (fun p => p.placeId) →
        (savePlaces env s ps).1.store.count x = 1) := by
  obtain ⟨h1, h2, h3⟩ := savePlaces_clean_core env ps s hnd hsf
  refine ⟨h1, h2, h3, fun x hx => ?_⟩
  exact List.count_eq_one_of_mem h2 ((h3 x).mpr (Or.inr hx))

/-- C2 witness: saving the batch [p1, p2] into a store that already holds
p1 keeps exactly one p1 row, stores p2, and does not throw. -/
theorem C2_duplicate_witness :
    sStoreEx.store.Nodup ∧
    (savePlaces envOkEx sStoreEx psEx).1.store.count "p1" = 1 ∧
    (savePlaces envOkEx sStoreEx psEx).1.store.count "p2" = 1 ∧
    (savePlaces envOkEx sStoreEx psEx).2 = false := by
  have h := C2_duplicate_natural_key envOkEx sStoreEx psEx (by decide)
    (fun p _ => rfl)
  exact ⟨by decide, h.2.2.2 "p1" (by decide), h.2.2.2 "p2" (by decide), h.1⟩

/-! ### Challenge-signal lemmas (claims C10 and C3) -/

theorem collectPlaces_captcha : ∀ (ls : List LinkEnv) (acc : List ScrapedPlaceData),
    ls.any (fun l => l.captchaBefore) = true →
    collectPlaces ls acc = Except.error ScrapeError.captchaDetected
  | [], _, h => by simp at h
  | l :: ls, acc, h => by
    by_cases hc : l.captchaBefore
    · simp [collectPlaces, hc]
    · simp only [List.any_cons, hc, Bool.false_or] at h
      cases hdet : l.detail with
      | some p =>
        simp only [collectPlaces, hc, Bool.false_eq_true, if_false, hdet]
        exact collectPlaces_captcha ls (acc ++ [p]) h
      | none =>
        simp only [collectPlaces, hc, Bool.false_eq_true, if_false, hdet]
        exact collectPlaces_captcha ls acc h

/-- C10: when the challenge detector fires before link k of a listing (and
navigation itself succeeded), searchPlaces propagates CAPTCHA_DETECTED and
returns no records — everything extracted from earlier links of that
listing existed only in the local scrapedData array and is discarded — and
the worker iteration for that (term, location) pair ends the execution with
the paused status and an unchanged datastore and scrapedCount: a challenge
at link k commits zero records from that listing, not k-1. -/
theorem C10_listing_commits_nothing (pe : PageEnv)
    (hn : pe.navFails = false)
    (hc : pe.links.any (fun l => l.captchaBefore) = true)
    (cfg : JobConfig) (env : ScrapeEnv) (i j : Nat) (s : WorkerState)
    (hpe : env.page i j = pe) :
    searchPlaces pe = Except.error ScrapeError.captchaDetected ∧
    processPair cfg env i j s = Except.error
      { s with searched := s.searched ++ [(i, j)],
               job := { s.job with status := JobStatus.PAUSED,
                                   pauseReason := some "CAPTCHA detected" },
               browserOpen := false } := by
  have hs : searchPlaces pe = Except.error ScrapeError.captchaDetected := by
    by_cases hic : pe.initialCaptcha <;>
      simp [searchPlaces, hn, hic, collectPlaces_captcha pe.links [] hc]
  refine ⟨hs, ?_⟩
  simp [processPair, hpe, hs]

/-- C10 witness: the concrete listing whose first link yields p1 and whose
second link trips the detector returns the captcha error with p1 discarded,
and the fixture worker state is left unchanged apart from the pause. -/
theorem C10_listing_witness :
    pageCapEx.navFails = false ∧
    pageCapEx.links.any (fun l => l.captchaBefore) = true ∧
    searchPlaces pageCapEx = Except.error ScrapeError.captchaDetected ∧
    processPair cfgEx envCapEx 0 1 sEx = Except.error
      { sEx with searched := sEx.searched ++ [(0, 1)],
                 job := { sEx.job with status := JobStatus.PAUSED,
                                       pauseReason := some "CAPTCHA detected" },
                 browserOpen := false } := by
  have h := C10_listing_commits_nothing pageCapEx rfl (by decide)
    cfgEx envCapEx 0 1 sEx (by decide)
  exact ⟨rfl, by decide, h.1, h.2⟩

/-! ### Enrichment pipeline lemmas (claim C9) -/

theorem mem_contact_fold (site : SiteEnv) :
    ∀ (links : List String) (acc : List String) (x : String),
      (x ∈ links.foldl
        (fun acc link =>
          let pg := site.contactPage link
          if pg.navFails then acc else addAll acc (dedupList pg.emails)) acc) ↔
      x ∈ acc ∨ ∃ l ∈ links, (site.contactPage l).navFails = false ∧
        x ∈ (site.contactPage l).emails
  | [], acc, x => by simp
  | l :: ls, acc, x => by
    rw [List.foldl_cons, mem_contact_fold site ls]
    cases hnav : (site.contactPage l).navFails <;>
      simp only [hnav, if_true, if_false, Bool.true_eq_false, Bool.false_eq_true,
        mem_addAll, mem_dedupList, List.mem_cons]
    · constructor
      · rintro ((h | h) | ⟨l2, hl2, h⟩)
        · exact Or.inl h
        · exact Or.inr ⟨l, Or.inl rfl, hnav, h⟩
        · exact Or.inr ⟨l2, Or.inr hl2, h⟩
      · rintro (h | ⟨l2, (rfl | hl2), hf, h⟩)
        · exact Or.inl (Or.inl h)
        · exact Or.inl (Or.inr h)
        · exact Or.inr ⟨l2, hl2, hf, h⟩
    · constructor
      · rintro (h | ⟨l2, hl2, h⟩)
        · exact Or.inl h
        · exact Or.inr ⟨l2, Or.inr hl2, h⟩
      · rintro (h | ⟨l2, (rfl | hl2), hf, h⟩)
        · exact Or.inl h
        · exact absurd hf (by simp [hnav])
        · exact Or.inr ⟨l2, hl2, hf, h⟩

theorem nodup_contact_fold (site : SiteEnv) :
    ∀ (links : List String) (acc : List String), acc.Nodup →
      (links.foldl
        (fun acc link =>
          let pg := site.contactPage link
          if pg.navFails then acc else addAll acc (dedupList pg.emails)) acc).Nodup
  | [], _, h => h
  | l :: ls, acc, h => by
    rw [List.foldl_cons]
    cases hnav : (site.contactPage l).navFails <;>
      simp only [hnav, if_true, if_false, Bool.true_eq_false, Bool.false_eq_true]
    · exact nodup_contact_fold site ls _ (nodup_addAll _ _ h)
    · exact nodup_contact_fold site ls _ h

/-- C9: the enrichment unit sets the record's flag to SCRAPING before any
fetch and to DONE after a successful one, patching the contact field with
the comma-joined deduplicated union of the email tokens found on the
homepage and on the at-most-two visited contact/about pages (a page whose
navigation fails contributes nothing, a failed homepage yields the empty
union); when the unit fails, exactly one status write marks the record
FAILED, nothing is fetched, the contact field is untouched, and the unit
re-throws once to the queue instead of looping. -/
theorem C9_enrichment_unit (env : EmailJobEnv) (row : PlaceRow) :
    ((processEmailJob env row).fetched = true →
        (processEmailJob env row).statusWrites
          = [EmailStatus.SCRAPING, EmailStatus.DONE]) ∧
    (env.initFails = false →
        (processEmailJob env row).row.emailScrapingStatus = EmailStatus.DONE ∧
        (processEmailJob env row).row.email
          = some (String.intercalate ", " (scrapeEmails env.site)) ∧
        (scrapeEmails env.site).Nodup ∧
        (∀ x, x ∈ scrapeEmails env.site ↔ env.site.homeFails = false ∧
            (x ∈ env.site.homeEmails ∨ ∃ l ∈ visitedPages env.site,
              (env.site.contactPage l).navFails = false ∧
              x ∈ (env.site.contactPage l).emails)) ∧
        (visitedPages env.site).length ≤ 2) ∧
    (env.initFails = true →
        (processEmailJob env row).statusWrites = [EmailStatus.FAILED] ∧
        (processEmailJob env row).fetched = false ∧
        (processEmailJob env row).row
          = { row with emailScrapingStatus := EmailStatus.FAILED } ∧
        (processEmailJob env row).threw = true) := by
  refine ⟨?_, ?_, ?_⟩
  · intro hf
    cases hi : env.initFails
    · simp [processEmailJob, hi]
    · simp [processEmailJob, hi] at hf
  · intro hi
    refine ⟨by simp [processEmailJob, hi], by simp [processEmailJob, hi], ?_, ?_, ?_⟩
    · cases hh : env.site.homeFails
      · simp only [scrapeEmails, hh, Bool.false_eq_true, if_false]
        exact nodup_contact_fold env.site _ _ (nodup_dedupList _)
      · simp [scrapeEmails, hh]
    · intro x
      cases hh : env.site.homeFails
      · simp only [scrapeEmails, hh, Bool.false_eq_true, if_false,
          mem_contact_fold env.site, mem_dedupList, true_and]
      · simp [scrapeEmails, hh]
    · simp [visitedPages, List.length_take_le]
  · intro hi
    simp [processEmailJob, hi]

/-- C9 witness: the unit applied to the fixture website patches the row to
DONE with the joined deduplicated union. -/
theorem C9_enrichment_witness :
    emailEnvOkEx.initFails = false ∧
    (processEmailJob emailEnvOkEx rowEx).row.emailScrapingStatus = EmailStatus.DONE ∧
    (processEmailJob emailEnvOkEx rowEx).row.email
      = some (String.intercalate ", " (scrapeEmails emailEnvOkEx.site)) := by
  have h := (C9_enrichment_unit emailEnvOkEx rowEx).2.1 rfl
  exact ⟨rfl, h.1, h.2.1⟩

/-! ### Worker-loop unfolding equations and frame lemmas -/

theorem savePlaces_cons (env : ScrapeEnv) (s : WorkerState)
    (p : ScrapedPlaceData) (ps : List ScrapedPlaceData) :
    savePlaces env s (p :: ps) =
      match savePlace env s p with
      | (s1, true) => (s1, true)
      | (s1, false) => savePlaces env s1 ps := rfl

theorem processLocations_succ (cfg : JobConfig) (env : ScrapeEnv)
    (i j rem : Nat) (s : WorkerState) :
    processLocations cfg env i j (rem + 1) s =
      match processPair cfg env i j s with
      | Except.error s1 => Except.error s1
      | Except.ok s1 => processLocations cfg env i (j + 1) rem s1 := rfl

theorem runKeywords_succ (cfg : JobConfig) (env : ScrapeEnv)
    (i rem : Nat) (s : WorkerState) :
    runKeywords cfg env i (rem + 1) s =
      if env.pauseSeen i then Except.error { s with browserOpen := false }
      else
        match processKeyword cfg env i
            { s with job := { s.job with currentKeywordIndex := i } } with
        | Except.error s2 => Except.error s2
        | Except.ok s2 => runKeywords cfg env (i + 1) rem s2 := rfl

/-- The save loop touches only the datastore and the scrapedCount counter;
every other component of the worker state passes through unchanged. -/
theorem savePlaces_shape (env : ScrapeEnv) : ∀ (ps : List ScrapedPlaceData)
    (s : WorkerState), ∃ st sc,
    (savePlaces env s ps).1 =
      { s with store := st, job := { s.job with scrapedCount := sc } }
  | [], s => ⟨s.store, s.job.scrapedCount, rfl⟩
  | p :: ps, s => by
    rw [savePlaces_cons]
    by_cases hd : p.placeId ∈ s.store
    · have hsp : savePlace env s p = (s, false) := by simp [savePlace, hd]
      rw [hsp]
      exact savePlaces_shape env ps s
    · by_cases hsf : env.saveFails p.placeId
      · have hsp : savePlace env s p = (s, true) := by simp [savePlace, hd, hsf]
        rw [hsp]
        exact ⟨s.store, s.job.scrapedCount, rfl⟩
      · have hsp : savePlace env s p =
            ({ s with store := s.store ++ [p.placeId],
                      job := { s.job with scrapedCount := s.job.scrapedCount + 1 } },
             false) := by
          simp [savePlace, hd, hsf]
        rw [hsp]
        obtain ⟨st, sc, h⟩ := savePlaces_shape env ps
          { s with store := s.store ++ [p.placeId],
                   job := { s.job with scrapedCount := s.job.scrapedCount + 1 } }
        exact ⟨st, sc, h⟩

/-- A non-captcha (keyword, location) query always lets the loop continue,
recording exactly one more searchPlaces invocation in the trace. -/
theorem processPair_ok (cfg : JobConfig) (env : ScrapeEnv) (i j : Nat)
    (s : WorkerState)
    (hnc : searchPlaces (env.page i j) ≠ Except.error ScrapeError.captchaDetected) :
    ∃ s2, processPair cfg env i j s = Except.ok s2 ∧
      s2.searched = s.searched ++ [(i, j)] := by
  unfold processPair
  cases hsp : searchPlaces (env.page i j) with
  | error e =>
    cases e with
    | captchaDetected => exact absurd hsp hnc
    | other => exact ⟨_, rfl, rfl⟩
  | ok places =>
    dsimp only
    by_cases hsub : cfg.hasSubLocations <;>
      simp only [hsub, if_true, Bool.false_eq_true, if_false]
    · obtain ⟨st, sc, hshape⟩ := savePlaces_shape env
        (places.take cfg.maxResultsPerKeyword)
        { s with searched := s.searched ++ [(i, j)],
                 job := { s.job with currentSubLocationIndex := j + 1 } }
      cases hsv : savePlaces env
          { s with searched := s.searched ++ [(i, j)],
                   job := { s.job with currentSubLocationIndex := j + 1 } }
          (places.take cfg.maxResultsPerKeyword) with
      | mk s3 ab =>
        rw [hsv] at hshape
        dsimp only at hshape
        cases ab
        · exact ⟨s3, rfl, by rw [hshape]⟩
        · exact ⟨_, rfl, by rw [hshape]⟩
    · obtain ⟨st, sc, hshape⟩ := savePlaces_shape env
        (places.take cfg.maxResultsPerKeyword)
        { s with searched := s.searched ++ [(i, j)] }
      cases hsv : savePlaces env
          { s with searched := s.searched ++ [(i, j)] }
          (places.take cfg.maxResultsPerKeyword) with
      | mk s3 ab =>
        rw [hsv] at hshape
        dsimp only at hshape
        cases ab
        · exact ⟨s3, rfl, by rw [hshape]⟩
        · exact ⟨_, rfl, by rw [hshape]⟩

/-- A stretch of the inner location loop with no captcha outcome runs to
completion, appending exactly its index range to the search trace. -/
theorem processLocations_ok (cfg : JobConfig) (env : ScrapeEnv) (i : Nat) :
    ∀ (rem j : Nat) (s : WorkerState),
      (∀ jx, j ≤ jx → jx < j + rem →
        searchPlaces (env.page i jx) ≠ Except.error ScrapeError.captchaDetected) →
      ∃ s2, processLocations cfg env i j rem s = Except.ok s2 ∧
        s2.searched = s.searched ++ (idxRange j rem).map (fun jx => (i, jx))
  | 0, j, s, _ => ⟨s, rfl, by simp [idxRange]⟩
  | rem + 1, j, s, h => by
    obtain ⟨s1, hp1, hs1⟩ := processPair_ok cfg env i j s
      (h j (Nat.le_refl j) (by omega))
    obtain ⟨s2, hp2, hs2⟩ := processLocations_ok cfg env i rem (j + 1) s1
      (fun jx h1 h2 => h jx (by omega) (by omega))
    refine ⟨s2, ?_, ?_⟩
    · rw [processLocations_succ, hp1]
      exact hp2
    · rw [hs2, hs1, idxRange]
      simp

/-- One keyword iteration body with no captcha outcome in its row runs to
completion, appending exactly its pair row to the search trace. -/
theorem processKeyword_ok (cfg : JobConfig) (env : ScrapeEnv) (i : Nat)
    (s : WorkerState)
    (h : ∀ jx < rowLen cfg,
      searchPlaces (env.page i jx) ≠ Except.error ScrapeError.captchaDetected) :
    ∃ s2, processKeyword cfg env i s = Except.ok s2 ∧
      s2.searched = s.searched ++ pairRow cfg i := by
  unfold processKeyword
  by_cases hL : 0 < cfg.searchLocations.length
  · have hrl : rowLen cfg = cfg.searchLocations.length :=
      Nat.max_eq_left (by omega)
    rw [if_pos hL]
    obtain ⟨s2, h2, hs2⟩ := processLocations_ok cfg env i
      cfg.searchLocations.length 0 s
      (fun jx _ h2 => h jx (by omega))
    exact ⟨s2, h2, by rw [hs2, pairRow, hrl]⟩
  · have hrl : rowLen cfg = 1 := by
      unfold rowLen
      omega
    rw [if_neg hL]
    obtain ⟨s2, h2, hs2⟩ := processPair_ok cfg env i 0 s
      (h 0 (by omega))
    exact ⟨s2, h2, by rw [hs2, pairRow, hrl]; rfl⟩

/-- A stretch of the outer keyword loop that sees no external pause and no
captcha outcome runs to completion, appending exactly its grid of
(keyword, location) pairs to the search trace. -/
theorem runKeywords_ok (cfg : JobConfig) (env : ScrapeEnv) :
    ∀ (rem i : Nat) (s : WorkerState),
      (∀ ix, i ≤ ix → ix < i + rem → env.pauseSeen ix = false) →
      (∀ ix, i ≤ ix → ix < i + rem → ∀ jx < rowLen cfg,
        searchPlaces (env.page ix jx) ≠ Except.error ScrapeError.captchaDetected) →
      ∃ s2, runKeywords cfg env i rem s = Except.ok s2 ∧
        s2.searched = s.searched ++ pairsFrom cfg i rem
  | 0, i, s, _, _ => ⟨s, rfl, by simp [pairsFrom]⟩
  | rem + 1, i, s, hp, hc => by
    obtain ⟨s2, h2, hs2⟩ := processKeyword_ok cfg env i
      { s with job := { s.job with currentKeywordIndex := i } }
      (hc i (Nat.le_refl i) (by omega))
    obtain ⟨s3, h3, hs3⟩ := runKeywords_ok cfg env rem (i + 1) s2
      (fun ix h1 hx => hp ix (by omega) (by omega))
      (fun ix h1 hx => hc ix (by omega) (by omega))
    refine ⟨s3, ?_, ?_⟩
    · rw [runKeywords_succ, if_neg (by rw [hp i (Nat.le_refl i) (by omega)]; simp), h2]
      exact h3
    · rw [hs3, hs2, pairsFrom]
      simp

/-- C1 amended: a re-dispatched (or freshly dispatched) job-unit resumes at
the persisted term index with the location index reset to zero — the
resume route passes resumeFromIndex = currentKeywordIndex and the worker
re-reads that cursor, but never reads currentSubLocationIndex back.  In a
challenge-free, pause-free environment the execution invokes the search
for exactly the (term, location) grid from (persisted term index, 0)
onward, in order, and completes: no unprocessed pair is ever skipped, but
every location of the current term is queried again, including pairs fully
processed before a pause (their duplicate rows are collapsed at write
time, compare C2). -/
theorem C1_resume_traversal (cfg : JobConfig) (env : ScrapeEnv)
    (s0 : WorkerState)
    (hst : s0.job.status ≠ JobStatus.PAUSED)
    (hinit : env.initFails = false)
    (hp : ∀ i, env.pauseSeen i = false)
    (hc : ∀ i j, searchPlaces (env.page i j) ≠ Except.error ScrapeError.captchaDetected) :
    (dispatch cfg env s0).job.status = JobStatus.COMPLETED ∧
    (dispatch cfg env s0).job.completedAt = true ∧
    (dispatch cfg env s0).searched = s0.searched ++
      pairsFrom cfg s0.job.currentKeywordIndex
        (cfg.keywords.length - s0.job.currentKeywordIndex) := by
  obtain ⟨s2, h2, hs2⟩ := runKeywords_ok cfg env
    (cfg.keywords.length - s0.job.currentKeywordIndex)
    s0.job.currentKeywordIndex
    { s0 with job := { s0.job with status := JobStatus.RUNNING, startedAt := true },
              browserOpen := true }
    (fun ix _ _ => hp ix)
    (fun ix _ _ jx _ => hc ix jx)
  unfold dispatch
  rw [if_neg hst, if_neg (by rw [hinit]; simp)]
  dsimp only
  rw [h2]
  exact ⟨rfl, rfl, hs2⟩

/-- C1 counterexample: the fixture job pauses on a challenge at pair
(0, 1) after fully processing pair (0, 0) — the persisted cursor (0, 1) at
that point indeed names the next unprocessed pair — yet the re-dispatch of
the resumed job invokes the search for the already-completed pair (0, 0)
again, refuting the claim that resuming never re-scrapes a (term,
location) pair that was fully processed before the pause. -/
theorem C1_cursor_counterexample :
    runCapEx.job.status = JobStatus.PAUSED ∧
    runCapEx.job.pauseReason = some "CAPTCHA detected" ∧
    runCapEx.searched = [(0, 0), (0, 1)] ∧
    runCapEx.store = ["p1"] ∧
    runCapEx.job.currentKeywordIndex = 0 ∧
    runCapEx.job.currentSubLocationIndex = 1 ∧
    resumeRoute runCapEx.job = Except.ok (jobResumedEx, { resumeFromIndex := 0 }) ∧
    runResumedEx.searched = [(0, 0), (0, 1)] ∧
    runResumedEx.job.status = JobStatus.COMPLETED :=
  ⟨rfl, rfl, rfl, rfl, rfl, rfl, rfl, rfl, rfl⟩

/-- C1 witness: the amended traversal theorem applied to the resumed
fixture job in a challenge-free environment — it completes and searches
exactly the grid from (persisted keyword index, location 0) onward. -/
theorem C1_resume_traversal_witness :
    jobResumedEx.status ≠ JobStatus.PAUSED ∧
    (dispatch cfgEx envOkEx { sEx with job := jobResumedEx, store := runCapEx.store }).job.status
      = JobStatus.COMPLETED ∧
    (dispatch cfgEx envOkEx { sEx with job := jobResumedEx, store := runCapEx.store }).searched
      = sEx.searched ++ pairsFrom cfgEx 0 1 := by
  have h := C1_resume_traversal cfgEx envOkEx
    { sEx with job := jobResumedEx, store := runCapEx.store }
    (by decide) rfl (fun _ => rfl)
    (fun i j => by
      show searchPlaces pageOkEx ≠ Except.error ScrapeError.captchaDetected
      decide)
  exact ⟨by decide, h.1, h.2.2⟩

/-! ### Loop decomposition lemmas (claim C3) -/

theorem searchPlaces_captcha_of_link (pe : PageEnv) (hn : pe.navFails = false)
    (hc : pe.links.any (fun l => l.captchaBefore) = true) :
    searchPlaces pe = Except.error ScrapeError.captchaDetected := by
  by_cases hic : pe.initialCaptcha <;>
    simp [searchPlaces, hn, hic, collectPlaces_captcha pe.links [] hc]

theorem processLocations_add (cfg : JobConfig) (env : ScrapeEnv) (i : Nat) :
    ∀ (a b j : Nat) (s : WorkerState),
      processLocations cfg env i j (a + b) s =
        match processLocations cfg env i j a s with
        | Except.error e => Except.error e
        | Except.ok s1 => processLocations cfg env i (j + a) b s1
  | 0, b, j, s => by
    rw [Nat.zero_add]
    rfl
  | a + 1, b, j, s => by
    have hx : a + 1 + b = (a + b) + 1 := by omega
    rw [hx, processLocations_succ, processLocations_succ]
    cases hpp : processPair cfg env i j s with
    | error e => rfl
    | ok s1 =>
      dsimp only
      rw [processLocations_add cfg env i a b (j + 1) s1]
      cases hq : processLocations cfg env i (j + 1) a s1 with
      | error e => rfl
      | ok s2 =>
        have hy : j + 1 + a = j + (a + 1) := by omega
        rw [hy]

theorem runKeywords_add (cfg : JobConfig) (env : ScrapeEnv) :
    ∀ (a b i : Nat) (s : WorkerState),
      runKeywords cfg env i (a + b) s =
        match runKeywords cfg env i a s with
        | Except.error e => Except.error e
        | Except.ok s1 => runKeywords cfg env (i + a) b s1
  | 0, b, i, s => by
    rw [Nat.zero_add]
    rfl
  | a + 1, b, i, s => by
    have hx : a + 1 + b = (a + b) + 1 := by omega
    rw [hx, runKeywords_succ, runKeywords_succ]
    by_cases hps : env.pauseSeen i
    · rw [if_pos hps, if_pos hps]
    · rw [if_neg hps, if_neg hps]
      cases hpk : processKeyword cfg env i
          { s with job := { s.job with currentKeywordIndex := i } } with
      | error e => rfl
      | ok s2 =>
        dsimp only
        rw [runKeywords_add cfg env a b (i + 1) s2]
        cases hq : runKeywords cfg env (i + 1) a s2 with
        | error e => rfl
        | ok s3 =>
          have hy : i + 1 + a = i + (a + 1) := by omega
          rw [hy]

/-- C3: when the first challenge signal of an execution fires at link k of
the listing for pair (iStar, jc) — navigation succeeded and some link trips
the detector — the execution ends exactly in the state reached after all
pairs before (iStar, jc): status PAUSED with pauseReason set, the search
trace extended only by the challenge pair itself, and the datastore and
scrapedCount equal to what was committed before the signal (the challenge
listing commits nothing, compare C10); nothing is processed afterwards.
sPre is the state after the keywords before iStar, sMid after the earlier
locations of iStar. -/
theorem C3_challenge_pauses (cfg : JobConfig) (env : ScrapeEnv)
    (s0 : WorkerState) (iStar jc : Nat)
    (hst : s0.job.status ≠ JobStatus.PAUSED)
    (hinit : env.initFails = false)
    (hp : ∀ i, env.pauseSeen i = false)
    (hlo : s0.job.currentKeywordIndex ≤ iStar)
    (hhi : iStar < cfg.keywords.length)
    (hL : 0 < cfg.searchLocations.length)
    (hjc : jc < cfg.searchLocations.length)
    (hPrev : ∀ i, s0.job.currentKeywordIndex ≤ i → i < iStar →
        ∀ j < rowLen cfg,
          searchPlaces (env.page i j) ≠ Except.error ScrapeError.captchaDetected)
    (hrow : ∀ j < jc,
        searchPlaces (env.page iStar j) ≠ Except.error ScrapeError.captchaDetected)
    (hnav : (env.page iStar jc).navFails = false)
    (hlink : (env.page iStar jc).links.any (fun l => l.captchaBefore) = true) :
    ∃ sPre sMid,
      runKeywords cfg env s0.job.currentKeywordIndex
        (iStar - s0.job.currentKeywordIndex)
        { s0 with job := { s0.job with status := JobStatus.RUNNING, startedAt := true },
                  browserOpen := true } = Except.ok sPre ∧
      processLocations cfg env iStar 0 jc
        { sPre with job := { sPre.job with currentKeywordIndex := iStar } }
        = Except.ok sMid ∧
      dispatch cfg env s0 =
        { sMid with
          searched := sMid.searched ++ [(iStar, jc)],
          job := { sMid.job with status := JobStatus.PAUSED,
                                 pauseReason := some "CAPTCHA detected" },
          browserOpen := false } ∧
      (dispatch cfg env s0).job.status = JobStatus.PAUSED ∧
      (dispatch cfg env s0).job.pauseReason = some "CAPTCHA detected" ∧
      (dispatch cfg env s0).store = sMid.store ∧
      (dispatch cfg env s0).job.scrapedCount = sMid.job.scrapedCount := by
  obtain ⟨sPre, hPre, _⟩ := runKeywords_ok cfg env
    (iStar - s0.job.currentKeywordIndex) s0.job.currentKeywordIndex
    { s0 with job := { s0.job with status := JobStatus.RUNNING, startedAt := true },
              browserOpen := true }
    (fun ix _ _ => hp ix)
    (fun ix h1 h2 jx hjx => hPrev ix h1 (by omega) jx hjx)
  obtain ⟨sMid, hMid, _⟩ := processLocations_ok cfg env iStar jc 0
    { sPre with job := { sPre.job with currentKeywordIndex := iStar } }
    (fun jx _ h2 => hrow jx (by omega))
  have hcap : searchPlaces (env.page iStar jc)
      = Except.error ScrapeError.captchaDetected :=
    searchPlaces_captcha_of_link _ hnav hlink
  have hstep : processPair cfg env iStar jc sMid = Except.error
      { sMid with
        searched := sMid.searched ++ [(iStar, jc)],
        job := { sMid.job with status := JobStatus.PAUSED,
                               pauseReason := some "CAPTCHA detected" },
        browserOpen := false } := by
    simp [processPair, hcap]
  have hLoc : processLocations cfg env iStar 0 cfg.searchLocations.length
      { sPre with job := { sPre.job with currentKeywordIndex := iStar } }
      = Except.error
        { sMid with
          searched := sMid.searched ++ [(iStar, jc)],
          job := { sMid.job with status := JobStatus.PAUSED,
                                 pauseReason := some "CAPTCHA detected" },
          browserOpen := false } := by
    have hsplit : cfg.searchLocations.length
        = jc + (cfg.searchLocations.length - jc) := by omega
    have h2 : cfg.searchLocations.length - jc
        = (cfg.searchLocations.length - jc - 1) + 1 := by omega
    rw [hsplit, processLocations_add, hMid]
    dsimp only
    rw [Nat.zero_add, h2, processLocations_succ, hstep]
  have hKw : processKeyword cfg env iStar
      { sPre with job := { sPre.job with currentKeywordIndex := iStar } }
      = Except.error
        { sMid with
          searched := sMid.searched ++ [(iStar, jc)],
          job := { sMid.job with status := JobStatus.PAUSED,
                                 pauseReason := some "CAPTCHA detected" },
          browserOpen := false } := by
    unfold processKeyword
    rw [if_pos hL]
    exact hLoc
  have hRunTail : runKeywords cfg env iStar (cfg.keywords.length - iStar) sPre
      = Except.error
        { sMid with
          searched := sMid.searched ++ [(iStar, jc)],
          job := { sMid.job with status := JobStatus.PAUSED,
                                 pauseReason := some "CAPTCHA detected" },
          browserOpen := false } := by
    have h2 : cfg.keywords.length - iStar
        = (cfg.keywords.length - iStar - 1) + 1 := by omega
    rw [h2, runKeywords_succ, if_neg (by rw [hp iStar]; simp), hKw]
  have hRun : runKeywords cfg env s0.job.currentKeywordIndex
      (cfg.keywords.length - s0.job.currentKeywordIndex)
      { s0 with job := { s0.job with status := JobStatus.RUNNING, startedAt := true },
                browserOpen := true }
      = Except.error
        { sMid with
          searched := sMid.searched ++ [(iStar, jc)],
          job := { sMid.job with status := JobStatus.PAUSED,
                                 pauseReason := some "CAPTCHA detected" },
          browserOpen := false } := by
    have hsplit2 : cfg.keywords.length - s0.job.currentKeywordIndex
        = (iStar - s0.job.currentKeywordIndex) + (cfg.keywords.length - iStar) := by
      omega
    have hidx : s0.job.currentKeywordIndex + (iStar - s0.job.currentKeywordIndex)
        = iStar := by omega
    rw [hsplit2, runKeywords_add, hPre]
    dsimp only
    rw [hidx]
    exact hRunTail
  have hDisp : dispatch cfg env s0 =
      { sMid with
        searched := sMid.searched ++ [(iStar, jc)],
        job := { sMid.job with status := JobStatus.PAUSED,
                               pauseReason := some "CAPTCHA detected" },
        browserOpen := false } := by
    unfold dispatch
    rw [if_neg hst, if_neg (by rw [hinit]; simp)]
    dsimp only
    rw [hRun]
  exact ⟨sPre, sMid, hPre, hMid, hDisp,
    by rw [hDisp], by rw [hDisp], by rw [hDisp], by rw [hDisp]⟩

/-- C3 witness: the fixture job paused by the challenge at pair (0, 1)
ends that execution in PAUSED with the reason set. -/
theorem C3_challenge_witness :
    (dispatch cfgEx envCapEx sEx).job.status = JobStatus.PAUSED ∧
    (dispatch cfgEx envCapEx sEx).job.pauseReason = some "CAPTCHA detected" := by
  obtain ⟨sPre, sMid, h⟩ := C3_challenge_pauses cfgEx envCapEx sEx 0 1
    (by decide) rfl (fun _ => rfl) (by decide) (by decide) (by decide) (by decide)
    (fun i h1 h2 => absurd h2 (by omega))
    (by decide) rfl (by decide)
  exact ⟨h.2.2.2.1, h.2.2.2.2.1⟩

/-! ### Clean-run accounting lemmas (claim C4) -/

theorem insertNew_nil (st : List String) : insertNew st [] = st := rfl

theorem insertNew_cons (st : List String) (id : String) (ids : List String) :
    insertNew st (id :: ids) =
      insertNew (if id ∈ st then st else st ++ [id]) ids := rfl

theorem insertNew_append (st a b : List String) :
    insertNew st (a ++ b) = insertNew (insertNew st a) b := by
  simp [insertNew, List.foldl_append]

/-- With no database failures, the save loop never aborts, upserts exactly
the batch's natural keys, and advances scrapedCount by the number of keys
actually inserted. -/
theorem savePlaces_insert (env : ScrapeEnv) (hsf : ∀ id, env.saveFails id = false) :
    ∀ (ps : List ScrapedPlaceData) (s : WorkerState),
      (savePlaces env s ps).2 = false ∧
      (savePlaces env s ps).1.store
        = insertNew s.store (ps.map (fun p => p.placeId)) ∧
      (savePlaces env s ps).1.job.scrapedCount + s.store.length
        = s.job.scrapedCount + (savePlaces env s ps).1.store.length
  | [], s => ⟨rfl, rfl, rfl⟩
  | p :: ps, s => by
    rw [savePlaces_cons]
    by_cases hd : p.placeId ∈ s.store
    · have hsp : savePlace env s p = (s, false) := by simp [savePlace, hd]
      rw [hsp]
      obtain ⟨h1, h2, h3⟩ := savePlaces_insert env hsf ps s
      refine ⟨h1, ?_, h3⟩
      rw [h2, List.map_cons, insertNew_cons, if_pos hd]
    · have hsp : savePlace env s p =
          ({ s with store := s.store ++ [p.placeId],
                    job := { s.job with scrapedCount := s.job.scrapedCount + 1 } },
           false) := by
        simp [savePlace, hd, hsf p.placeId]
      rw [hsp]
      dsimp only
      obtain ⟨h1, h2, h3⟩ := savePlaces_insert env hsf ps
        { s with store := s.store ++ [p.placeId],
                 job := { s.job with scrapedCount := s.job.scrapedCount + 1 } }
      refine ⟨h1, ?_, ?_⟩
      · rw [h2, List.map_cons, insertNew_cons, if_neg hd]
      · dsimp only at h3
        simp only [List.length_append, List.length_singleton] at h3
        omega

/-- One clean (keyword, location) iteration upserts exactly its capped
result list, keeps scrapedCount in step with the store growth, and leaves
failedCount untouched. -/
theorem processPair_clean (cfg : JobConfig) (env : ScrapeEnv) (i j : Nat)
    (s : WorkerState)
    (hsf : ∀ id, env.saveFails id = false)
    (hok : ∃ ps, searchPlaces (env.page i j) = Except.ok ps) :
    ∃ s2, processPair cfg env i j s = Except.ok s2 ∧
      s2.store = insertNew s.store (cappedIds cfg env i j) ∧
      s2.job.scrapedCount + s.store.length
        = s.job.scrapedCount + s2.store.length ∧
      s2.job.failedCount = s.job.failedCount := by
  obtain ⟨ps, hps⟩ := hok
  have hcap : cappedIds cfg env i j
      = (ps.take cfg.maxResultsPerKeyword).map (fun p => p.placeId) := by
    unfold cappedIds
    rw [hps]
  unfold processPair
  rw [hps]
  dsimp only
  by_cases hsub : cfg.hasSubLocations <;>
    simp only [hsub, if_true, Bool.false_eq_true, if_false]
  · obtain ⟨h1, h2, h3⟩ := savePlaces_insert env hsf (ps.take cfg.maxResultsPerKeyword)
      { s with searched := s.searched ++ [(i, j)],
               job := { s.job with currentSubLocationIndex := j + 1 } }
    obtain ⟨st, sc, hsh⟩ := savePlaces_shape env (ps.take cfg.maxResultsPerKeyword)
      { s with searched := s.searched ++ [(i, j)],
               job := { s.job with currentSubLocationIndex := j + 1 } }
    cases hsv : savePlaces env
        { s with searched := s.searched ++ [(i, j)],
                 job := { s.job with currentSubLocationIndex := j + 1 } }
        (ps.take cfg.maxResultsPerKeyword) with
    | mk s3 ab =>
      rw [hsv] at h1 h2 h3 hsh
      dsimp only at h1 h2 h3 hsh
      cases ab with
      | true => exact absurd h1 (by simp)
      | false =>
        refine ⟨s3, rfl, ?_, h3, ?_⟩
        · rw [hcap]
          exact h2
        · rw [hsh]
  · obtain ⟨h1, h2, h3⟩ := savePlaces_insert env hsf (ps.take cfg.maxResultsPerKeyword)
      { s with searched := s.searched ++ [(i, j)] }
    obtain ⟨st, sc, hsh⟩ := savePlaces_shape env (ps.take cfg.maxResultsPerKeyword)
      { s with searched := s.searched ++ [(i, j)] }
    cases hsv : savePlaces env
        { s with searched := s.searched ++ [(i, j)] }
        (ps.take cfg.maxResultsPerKeyword) with
    | mk s3 ab =>
      rw [hsv] at h1 h2 h3 hsh
      dsimp only at h1 h2 h3 hsh
      cases ab with
      | true => exact absurd h1 (by simp)
      | false =>
        refine ⟨s3, rfl, ?_, h3, ?_⟩
        · rw [hcap]
          exact h2
        · rw [hsh]

/-- A clean stretch of the inner location loop upserts exactly the capped
results of its index range, in order. -/
theorem processLocations_clean (cfg : JobConfig) (env : ScrapeEnv) (i : Nat)
    (hsf : ∀ id, env.saveFails id = false)
    (hok : ∀ j, ∃ ps, searchPlaces (env.page i j) = Except.ok ps) :
    ∀ (rem j : Nat) (s : WorkerState),
      ∃ s2, processLocations cfg env i j rem s = Except.ok s2 ∧
        s2.store = insertNew s.store
          (((idxRange j rem).map (cappedIds cfg env i)).flatten) ∧
        s2.job.scrapedCount + s.store.length
          = s.job.scrapedCount + s2.store.length ∧
        s2.job.failedCount = s.job.failedCount
  | 0, j, s => ⟨s, rfl, by simp [idxRange, insertNew_nil], rfl, rfl⟩
  | rem + 1, j, s => by
    obtain ⟨s1, hp1, hst1, hc1, hf1⟩ := processPair_clean cfg env i j s hsf (hok j)
    obtain ⟨s2, hp2, hst2, hc2, hf2⟩ :=
      processLocations_clean cfg env i hsf hok rem (j + 1) s1
    refine ⟨s2, ?_, ?_, ?_, ?_⟩
    · rw [processLocations_succ, hp1]
      exact hp2
    · rw [hst2, hst1, idxRange]
      simp [insertNew_append]
    · omega
    · rw [hf2, hf1]

/-- One clean keyword iteration body upserts exactly its row of capped
results. -/
theorem processKeyword_clean (cfg : JobConfig) (env : ScrapeEnv) (i : Nat)
    (s : WorkerState)
    (hsf : ∀ id, env.saveFails id = false)
    (hok : ∀ j, ∃ ps, searchPlaces (env.page i j) = Except.ok ps) :
    ∃ s2, processKeyword cfg env i s = Except.ok s2 ∧
      s2.store = insertNew s.store (rowIds cfg env i) ∧
      s2.job.scrapedCount + s.store.length
        = s.job.scrapedCount + s2.store.length ∧
      s2.job.failedCount = s.job.failedCount := by
  unfold processKeyword
  by_cases hL : 0 < cfg.searchLocations.length
  · have hrl : rowLen cfg = cfg.searchLocations.length :=
      Nat.max_eq_left (by omega)
    rw [if_pos hL]
    obtain ⟨s2, h2, hst, hc, hf⟩ := processLocations_clean cfg env i hsf hok
      cfg.searchLocations.length 0 s
    exact ⟨s2, h2, by rw [hst, rowIds, hrl], hc, hf⟩
  · have hrl : rowLen cfg = 1 := by
      unfold rowLen
      omega
    rw [if_neg hL]
    obtain ⟨s2, h2, hst, hc, hf⟩ := processPair_clean cfg env i 0 s hsf (hok 0)
    refine ⟨s2, h2, ?_, hc, hf⟩
    rw [hst, rowIds, hrl]
    simp [idxRange]

/-- A clean stretch of the outer keyword loop upserts exactly the capped
results of its keyword grid, in order. -/
theorem runKeywords_clean (cfg : JobConfig) (env : ScrapeEnv)
    (hsf : ∀ id, env.saveFails id = false)
    (hp : ∀ i, env.pauseSeen i = false)
    (hok : ∀ i j, ∃ ps, searchPlaces (env.page i j) = Except.ok ps) :
    ∀ (rem i : Nat) (s : WorkerState),
      ∃ s2, runKeywords cfg env i rem s = Except.ok s2 ∧
        s2.store = insertNew s.store (idsFrom cfg env i rem) ∧
        s2.job.scrapedCount + s.store.length
          = s.job.scrapedCount + s2.store.length ∧
        s2.job.failedCount = s.job.failedCount
  | 0, i, s => ⟨s, rfl, by simp [idsFrom, insertNew_nil], rfl, rfl⟩
  | rem + 1, i, s => by
    obtain ⟨s2, h2, hst2, hc2, hf2⟩ := processKeyword_clean cfg env i
      { s with job := { s.job with currentKeywordIndex := i } } hsf (hok i)
    obtain ⟨s3, h3, hst3, hc3, hf3⟩ := runKeywords_clean cfg env hsf hp hok rem (i + 1) s2
    refine ⟨s3, ?_, ?_, ?_, ?_⟩
    · rw [runKeywords_succ, if_neg (by rw [hp i]; simp), h2]
      exact h3
    · rw [hst3, hst2, idsFrom]
      dsimp only
      rw [insertNew_append]
    · dsimp only at hc2
      omega
    · rw [hf3, hf2]

/-- C4: a fresh job execution whose environment raises no challenge signal
and no per-record error (every search returns a result list and every
insert succeeds or is a duplicate) ends in COMPLETED with the completion
timestamp set, its datastore extended by exactly the capped results of
every (term, location) pair with duplicate keys collapsed, recordsScraped
equal to the number of records actually committed (the sum over pairs of
records returned, after the per-term cap and duplicate-key skips), and
failedCount equal to 0. -/
theorem C4_clean_completion (cfg : JobConfig) (env : ScrapeEnv)
    (s0 : WorkerState)
    (hst : s0.job.status ≠ JobStatus.PAUSED)
    (hinit : env.initFails = false)
    (hp : ∀ i, env.pauseSeen i = false)
    (hok : ∀ i j, ∃ ps, searchPlaces (env.page i j) = Except.ok ps)
    (hsf : ∀ id, env.saveFails id = false)
    (hsc : s0.job.scrapedCount = 0)
    (hfc : s0.job.failedCount = 0) :
    (dispatch cfg env s0).job.status = JobStatus.COMPLETED ∧
    (dispatch cfg env s0).job.completedAt = true ∧
    (dispatch cfg env s0).store = insertNew s0.store
      (idsFrom cfg env s0.job.currentKeywordIndex
        (cfg.keywords.length - s0.job.currentKeywordIndex)) ∧
    (dispatch cfg env s0).job.scrapedCount
      = (dispatch cfg env s0).store.length - s0.store.length ∧
    (dispatch cfg env s0).job.failedCount = 0 := by
  obtain ⟨s2, h2, hstore, hcount, hfail⟩ := runKeywords_clean cfg env hsf hp hok
    (cfg.keywords.length - s0.job.currentKeywordIndex) s0.job.currentKeywordIndex
    { s0 with job := { s0.job with status := JobStatus.RUNNING, startedAt := true },
              browserOpen := true }
  unfold dispatch
  rw [if_neg hst, if_neg (by rw [hinit]; simp)]
  dsimp only
  rw [h2]
  dsimp only at hstore hcount hfail
  refine ⟨rfl, rfl, hstore, ?_, ?_⟩
  · rw [hsc] at hcount
    dsimp only
    omega
  · dsimp only
    rw [hfail]
    exact hfc

/-- C4 witness: the one-keyword two-location fixture job against listings
returning [p1, p2, p1] completes with exactly the two distinct records
committed and no failures. -/
theorem C4_clean_witness :
    sEx.job.scrapedCount = 0 ∧ sEx.job.failedCount = 0 ∧
    (dispatch cfgEx envTwoEx sEx).job.status = JobStatus.COMPLETED ∧
    (dispatch cfgEx envTwoEx sEx).job.completedAt = true ∧
    (dispatch cfgEx envTwoEx sEx).job.scrapedCount
      = (dispatch cfgEx envTwoEx sEx).store.length - sEx.store.length ∧
    (dispatch cfgEx envTwoEx sEx).job.failedCount = 0 := by
  have h := C4_clean_completion cfgEx envTwoEx sEx (by decide) rfl (fun _ => rfl)
    (fun i j => ⟨[exPlace1, exPlace2, exPlace1], rfl⟩) (fun _ => rfl) rfl rfl
  exact ⟨rfl, rfl, h.1, h.2.1, h.2.2.2.1, h.2.2.2.2⟩

end GmapsExtract
